import Mathlib

/-!
Shallow embedding of the live audio session hook of the AI-Teacher repository
(src/hooks/useGeminiLive.ts) together with the wire audio codec described by
the specification.  Browser objects (AudioContext, MediaStream,
AudioBufferSourceNode, the GenAI live session) are modelled by identifiers;
externally visible actions on them are recorded as an `Effect` trace, and the
mutable refs of the hook become fields of an explicit `HookState`.
-/

namespace AITeacher

/-- Connection lifecycle states, from src/types.ts (ConnectionState). -/
inductive ConnectionState
  | DISCONNECTED
  | CONNECTING
  | CONNECTED
  | ERROR
deriving DecidableEq, Repr

/-- Externally visible actions performed by the hook.  Identifiers stand for
the browser/session objects they act on.  `closeSession` records that
`session.close()` was requested through the stored session promise (the
request is registered synchronously; the remote close resolves later).
`sendToolResponse` carries the payload of `session.sendToolResponse`
(`response.result` as the last field). -/
inductive Effect
  | closeSession (sid : Nat)
  | stopTracks (stream : Nat)
  | disconnectInputSource
  | disconnectProcessor
  | closeInputCtx
  | closeOutputCtx
  | stopSource (h : Nat)
  | startSource (h : Nat) (t : ℚ)
  | sendRealtime (sid : Nat) (data : List Nat) (mimeType : String)
  | playFeedback (isCorrect : Bool)
  | onEvaluation (isCorrect : Bool) (topic : Option String)
  | sendToolResponse (sid : Nat) (id : String) (fname : String) (result : String)
deriving DecidableEq, Repr

/-- The mutable state of the hook: the React refs of useGeminiLive.ts
(`inputAudioContextRef`, `outputAudioContextRef`, `scriptProcessorRef`,
`inputSourceRef`, `mediaStreamRef`, `nextStartTimeRef`, `sourcesRef`,
`sessionPromiseRef`) and the React state (`connectionState`,
`isMimiSpeaking`).  The `volume` visualizer state is presentational
(spec section 4.1 treats the VolumeSample consumer as external) and is not
modelled.  `sources` keeps the handles of the JS Set in insertion order,
which is the Set's iteration order. -/
structure HookState where
  connectionState : ConnectionState
  isMimiSpeaking : Bool
  inputCtx : Bool
  outputCtx : Bool
  scriptProcessor : Bool
  inputSource : Bool
  mediaStream : Option Nat
  nextStartTime : ℚ
  sources : List Nat
  sessionPromise : Option Nat
deriving DecidableEq, Repr

/-- The state on first render: all refs null, `nextStartTimeRef` initialised
to 0, connection state DISCONNECTED, speaking flag false. -/
def initialState : HookState :=
  { connectionState := ConnectionState.DISCONNECTED
    isMimiSpeaking := false
    inputCtx := false
    outputCtx := false
    scriptProcessor := false
    inputSource := false
    mediaStream := none
    nextStartTime := 0
    sources := []
    sessionPromise := none }

/-- `disconnect` from useGeminiLive.ts (lines 106-150): request close of the
stored session promise and null it, stop the microphone tracks, disconnect
the input source and script processor nodes, close the input context, stop
every active playback source and clear the set, close the output context,
then set state DISCONNECTED, speaking false.  `nextStartTimeRef` is not
touched by disconnect. -/
def disconnect (s : HookState) : HookState × List Effect :=
  let closeEff := match s.sessionPromise with
    | some sid => [Effect.closeSession sid]
    | none => []
  let micEff := match s.mediaStream with
    | some m => [Effect.stopTracks m]
    | none => []
  let srcEff := if s.inputSource then [Effect.disconnectInputSource] else []
  let procEff := if s.scriptProcessor then [Effect.disconnectProcessor] else []
  let inCtxEff := if s.inputCtx then [Effect.closeInputCtx] else []
  let stopEffs := s.sources.map Effect.stopSource
  let outCtxEff := if s.outputCtx then [Effect.closeOutputCtx] else []
  ({ connectionState := ConnectionState.DISCONNECTED
     isMimiSpeaking := false
     inputCtx := false
     outputCtx := false
     scriptProcessor := false
     inputSource := false
     mediaStream := none
     nextStartTime := s.nextStartTime
     sources := []
     sessionPromise := none },
   closeEff ++ micEff ++ srcEff ++ procEff ++ inCtxEff ++ stopEffs ++ outCtxEff)

/-- The success path of `connect` from useGeminiLive.ts (lines 152-306) up to
the point where the session promise is stored: set state CONNECTING, create
fresh input and output audio contexts (overwriting the refs), set
`nextStartTimeRef` to the new output context clock, await `getUserMedia`
successfully (overwriting `mediaStreamRef` with the new `stream`), call
`ai.live.connect` and store the promise (overwriting `sessionPromiseRef`).
No teardown action of any kind is performed on a previously stored stream or
session; the old refs are simply overwritten. -/
def connectOk (s : HookState) (clock : ℚ) (stream sid : Nat) :
    HookState × List Effect :=
  ({ s with connectionState := ConnectionState.CONNECTING
            inputCtx := true
            outputCtx := true
            nextStartTime := clock
            mediaStream := some stream
            sessionPromise := some sid }, [])

/-- The failure path of `connect` when microphone acquisition rejects
(useGeminiLive.ts lines 152-171 and the catch at lines 308-312): state
CONNECTING, both audio contexts created, `nextStartTimeRef` set to the clock,
then `await navigator.mediaDevices.getUserMedia` throws; the catch block
sets state ERROR and then calls `disconnect()`, whose final action sets the
state to DISCONNECTED. -/
def connectMicFail (s : HookState) (clock : ℚ) : HookState × List Effect :=
  let s1 := { s with connectionState := ConnectionState.CONNECTING
                     inputCtx := true
                     outputCtx := true
                     nextStartTime := clock }
  let s2 := { s1 with connectionState := ConnectionState.ERROR }
  disconnect s2

/-- One remote function call of a `toolCall` transport message
(`message.toolCall.functionCalls` entries).  The handler reads
`args.isCorrect` as a boolean and `args.topic` as an optional string only
when the name matches the evaluation tool, so only those two argument
fields are modelled. -/
structure FunctionCall where
  id : String
  fname : String
  isCorrect : Bool
  topic : Option String
deriving DecidableEq, Repr

/-- A decoded inbound audio chunk: a count of 16-bit mono samples at 24 kHz.
The sample values play no role in scheduling, so only the count is kept. -/
structure Chunk where
  numSamples : Nat
deriving DecidableEq, Repr

/-- Modelled from the spec: `decodeAudioData` (src/utils/audio, absent from
src/) builds a 24 kHz mono AudioBuffer, whose `duration` is the sample count
divided by 24000 (spec sections 4.4 and 4.5: "Advance nextStartTime by the
chunk's duration (samples / 24000)"). -/
def Chunk.duration (c : Chunk) : ℚ := (c.numSamples : ℚ) / 24000

/-- One `LiveServerMessage` as read by the `onmessage` handler: an optional
list of function calls (`message.toolCall`), an optional inbound audio chunk
(`message.serverContent.modelTurn.parts[0].inlineData.data`, already
decoded), and the interruption flag (`message.serverContent.interrupted`).
An absent `toolCall` field is the empty list. -/
structure ServerMessage where
  toolCalls : List FunctionCall
  audio : Option Chunk
  interrupted : Bool
deriving DecidableEq, Repr

/-- The body of the `for (const fc of message.toolCall.functionCalls)` loop
(useGeminiLive.ts lines 224-250): only calls named "reportEvaluation" are
handled; for those, `playFeedbackSound(isCorrect)` runs, then the external
evaluation callback is invoked when registered (`onEvaluationRef.current`),
then — when `sessionPromiseRef.current` is set — a tool response with the
same call id and the fixed payload result "ok" is scheduled on the session.
Calls with any other name fall through with no action.  The hook state is
not mutated by this loop. -/
def handleToolCall (hasCallback : Bool) (sessionPromise : Option Nat)
    (fc : FunctionCall) : List Effect :=
  if fc.fname = "reportEvaluation" then
    [Effect.playFeedback fc.isCorrect]
      ++ (if hasCallback then [Effect.onEvaluation fc.isCorrect fc.topic] else [])
      ++ (match sessionPromise with
          | some sid => [Effect.sendToolResponse sid fc.id fc.fname "ok"]
          | none => [])
  else []

/-- The part of the `onmessage` audio branch that runs before the
`await decodeAudioData(...)` suspension (useGeminiLive.ts lines 260-263):
set the speaking flag true and clamp the timeline cursor forward to the
output clock, `nextStartTime := max(nextStartTime, currentTime)`. -/
def audioPre (s : HookState) (now : ℚ) : HookState :=
  { s with isMimiSpeaking := true
           nextStartTime := max s.nextStartTime now }

/-- The part of the `onmessage` audio branch that runs after the decode
await resolves (useGeminiLive.ts lines 268-282): create a buffer source
`h`, start it at the current value of `nextStartTimeRef`, advance the
cursor by the chunk duration and add the handle to the active set.  No
re-check of the session or of the refs happens between the await and these
mutations. -/
def audioPost (s : HookState) (c : Chunk) (h : Nat) : HookState × List Effect :=
  ({ s with nextStartTime := s.nextStartTime + c.duration
            sources := s.sources ++ [h] },
   [Effect.startSource h s.nextStartTime])

/-- The interruption branch of `onmessage` (useGeminiLive.ts lines 286-292):
stop every source in the active set, clear the set, reset the timeline
cursor to the output clock and set the speaking flag false. -/
def handleInterruption (s : HookState) (now : ℚ) : HookState × List Effect :=
  ({ s with sources := []
            nextStartTime := now
            isMimiSpeaking := false },
   s.sources.map Effect.stopSource)

/-- The `onmessage` callback (useGeminiLive.ts lines 221-293) for one
message, processed to completion with no interleaved event: first the tool
call loop, then the audio branch (when an inbound chunk is present), then
the interruption branch.  `now` is the output clock reading during this
invocation and `h` the buffer source created for the chunk, if any.  The
`if (!outputCtx) return` guard is not modelled because `outputCtx` is a
closure constant that is never null once the handler is installed.  Tool
responses and the decode are scheduled/awaited asynchronously in the
source; the trace records actions in the order the handler issues them. -/
def onmessage (hasCallback : Bool) (s : HookState) (msg : ServerMessage)
    (now : ℚ) (h : Nat) : HookState × List Effect :=
  let toolEffs := msg.toolCalls.flatMap (handleToolCall hasCallback s.sessionPromise)
  let audioStep : HookState × List Effect :=
    match msg.audio with
    | some c => audioPost (audioPre s now) c h
    | none => (s, [])
  if msg.interrupted then
    let intr := handleInterruption audioStep.1 now
    (intr.1, toolEffs ++ audioStep.2 ++ intr.2)
  else
    (audioStep.1, toolEffs ++ audioStep.2)

/-- The ids carried by the `sendToolResponse` actions of a trace, in order. -/
def toolResponseIds (effs : List Effect) : List String :=
  effs.filterMap fun e =>
    match e with
    | Effect.sendToolResponse _ id _ _ => some id
    | _ => none

/- ## The wire audio codec

`createBlob`, `decode` and `decodeAudioData` live in src/utils/audio, which
is not part of src/; the definitions below are modelled from the spec
(sections 4.2 and 4.4).  Base64 is a faithful transport of the byte
sequence, so the blob payloads are modelled directly as byte lists. -/

/-- Truncation of a rational toward zero, the rounding JavaScript applies
when a float is stored into an Int16Array element. -/
def ratTrunc (x : ℚ) : ℤ := if 0 ≤ x then ⌊x⌋ else ⌈x⌉

/-- Clamp an integer to the signed 16-bit range. -/
def int16Clamp (n : ℤ) : ℤ := max (-32768) (min 32767 n)

/-- Modelled from the spec: the quantization step of `createBlob`
(src/utils/audio, absent from src/) — "multiply by 32767, clamp to the
signed 16-bit range" (spec section 4.2). -/
def quantizeSample (x : ℚ) : ℤ := int16Clamp (ratTrunc (32767 * x))

/-- Little-endian byte serialization of a signed 16-bit value
(two's complement). -/
def int16ToBytesLE (n : ℤ) : List Nat :=
  [(n % 65536).toNat % 256, (n % 65536).toNat / 256]

/-- Modelled from the spec: the byte payload of `createBlob` — each sample
quantized to int16 and serialized little-endian (spec section 4.2). -/
def createBlobData (frame : List ℚ) : List Nat :=
  (frame.map quantizeSample).flatMap int16ToBytesLE

/-- Read one little-endian signed 16-bit value from two bytes. -/
def bytesToInt16 (b0 b1 : Nat) : ℤ :=
  if b0 + 256 * b1 < 32768 then (b0 + 256 * b1 : ℤ)
  else (b0 + 256 * b1 : ℤ) - 65536

/-- Read a byte sequence as consecutive little-endian int16 values
(a trailing odd byte yields nothing; spec section 4.4 rejects odd lengths). -/
def bytesToInt16s : List Nat → List ℤ
  | b0 :: b1 :: rest => bytesToInt16 b0 b1 :: bytesToInt16s rest
  | _ => []

/-- Modelled from the spec: the inbound decoder (`decodeAudioData`,
src/utils/audio, absent from src/) — bytes as 16-bit signed PCM, normalized
to floats by the quantization factor, so that encode-decode round-trips
within one quantization step (spec sections 4.4 and 8). -/
def decodeAudioSamples (bytes : List Nat) : List ℚ :=
  (bytesToInt16s bytes).map fun n : ℤ => (n : ℚ) / 32767

/-- Modelled from the spec: `createBlob` tags the byte payload with the
16 kHz PCM mime type (spec sections 4.2 and 6). -/
def createBlobMime : String := "audio/pcm;rate=16000"

/-- The `onaudioprocess` capture callback (useGeminiLive.ts lines 197-216)
for one 4096-sample frame: the RMS volume update is presentational and not
modelled; the frame is encoded with `createBlob` and sent on the session
via `sendRealtimeInput` only when `sessionPromiseRef.current` is set.  The
check is on the current value of the ref, not on the session that owned
the callback. -/
def onaudioprocess (s : HookState) (frame : List ℚ) : HookState × List Effect :=
  match s.sessionPromise with
  | some sid => (s, [Effect.sendRealtime sid (createBlobData frame) createBlobMime])
  | none => (s, [])

/-- Check that a sample is a valid normalized amplitude in [-1, 1]. -/
def inRange (x : ℚ) : Bool := decide (-1 ≤ x) && decide (x ≤ 1)

/-- A hook state in the middle of a healthy session: connected, with a live
microphone stream 0, input pipeline installed, one playback source active
and session promise 0 stored. -/
def connectedState : HookState :=
  { connectionState := ConnectionState.CONNECTED
    isMimiSpeaking := false
    inputCtx := true
    outputCtx := true
    scriptProcessor := true
    inputSource := true
    mediaStream := some 0
    nextStartTime := 2
    sources := [1]
    sessionPromise := some 0 }

/- ## Claims -/

/-- Claim C8: `disconnect()` is idempotent and safe from any state: from any
state it leaves the connection state DISCONNECTED; a second call leaves the
state unchanged and performs no action; calling it on the initial state
(before any connect) also ends DISCONNECTED with no action performed.  Being
a total function of the model, it raises no error. -/
theorem disconnect_idempotent_safe (s : HookState) :
    (disconnect s).1.connectionState = ConnectionState.DISCONNECTED ∧
    (disconnect (disconnect s).1).1 = (disconnect s).1 ∧
    (disconnect (disconnect s).1).2 = [] ∧
    (disconnect initialState).1.connectionState = ConnectionState.DISCONNECTED ∧
    (disconnect initialState).2 = [] :=
  ⟨rfl, rfl, rfl, rfl, rfl⟩

/-- Claim C3 (behavior at the failing input): when microphone acquisition
rejects during `connect()`, the catch block sets ERROR and then calls
`disconnect()`, whose last state update overwrites ERROR: the state observed
after the failure handling completes is DISCONNECTED, not ERROR.  No partial
session is left running: stream, session, audio contexts and playback
handles are all cleared. -/
theorem connect_mic_failure_state (s : HookState) (clock : ℚ) :
    (connectMicFail s clock).1.connectionState = ConnectionState.DISCONNECTED ∧
    (connectMicFail s clock).1.connectionState ≠ ConnectionState.ERROR ∧
    (connectMicFail s clock).1.mediaStream = none ∧
    (connectMicFail s clock).1.sources = [] ∧
    (connectMicFail s clock).1.sessionPromise = none ∧
    (connectMicFail s clock).1.inputCtx = false ∧
    (connectMicFail s clock).1.outputCtx = false :=
  by
  refine ⟨rfl, ?_, rfl, rfl, rfl, rfl, rfl⟩
  intro hc
  exact nomatch hc

/-- Claim C1 (counterexample): calling `connect()` from a CONNECTED state
with a live stream 0 and an active session 0 performs no action at all —
in particular the previous stream is not stopped and no close is requested
on the previous session before the new session 1 is established, refuting
the claim that the previous session is first fully torn down. -/
theorem connect_no_teardown_counterexample :
    connectedState.connectionState = ConnectionState.CONNECTED ∧
    connectedState.mediaStream = some 0 ∧
    connectedState.sessionPromise = some 0 ∧
    (connectOk connectedState 1 1 1).2 = [] ∧
    Effect.stopTracks 0 ∉ (connectOk connectedState 1 1 1).2 ∧
    Effect.closeSession 0 ∉ (connectOk connectedState 1 1 1).2 ∧
    (connectOk connectedState 1 1 1).1.sessionPromise = some 1 := by
  refine ⟨rfl, rfl, rfl, rfl, ?_, ?_, rfl⟩ <;> simp [connectOk]

/-- Claim C1 (amended): `connect()` performs no teardown of a previous
session in any state: its success path emits no action before the new
session is established, and it simply overwrites the media stream and
session refs, so a call made while CONNECTING/CONNECTED leaves the previous
microphone stream running and the previous transport unclosed; teardown
happens only through `disconnect()`. -/
theorem connect_overwrites_without_teardown (s : HookState) (clock : ℚ)
    (stream sid : Nat) :
    (connectOk s clock stream sid).2 = [] ∧
    (connectOk s clock stream sid).1.mediaStream = some stream ∧
    (connectOk s clock stream sid).1.sessionPromise = some sid ∧
    (connectOk s clock stream sid).1.connectionState = ConnectionState.CONNECTING :=
  ⟨rfl, rfl, rfl, rfl⟩

/-- Claim C10: a single message carrying both an inbound audio chunk and the
interruption flag schedules the chunk first and applies the interruption
afterwards: after the message the active set is empty, the speaking flag is
false, the cursor equals the clock, and the trace shows the start of the new
handle followed by stops of every handle including the just-scheduled one. -/
theorem message_audio_and_interruption (cb : Bool) (s : HookState) (c : Chunk)
    (now : ℚ) (h : Nat) :
    (onmessage cb s ⟨[], some c, true⟩ now h).1.sources = [] ∧
    (onmessage cb s ⟨[], some c, true⟩ now h).1.isMimiSpeaking = false ∧
    (onmessage cb s ⟨[], some c, true⟩ now h).1.nextStartTime = now ∧
    (onmessage cb s ⟨[], some c, true⟩ now h).2
      = Effect.startSource h (max s.nextStartTime now)
          :: (s.sources ++ [h]).map Effect.stopSource ∧
    Effect.stopSource h ∈ (onmessage cb s ⟨[], some c, true⟩ now h).2 := by
  refine ⟨rfl, rfl, rfl, rfl, ?_⟩
  simp [onmessage, audioPre, audioPost, handleInterruption]

/-- Claim C4 (counterexample): the inbound-chunk path performs no
stale-session re-validation after its decode await.  Starting from a
connected state, the pre-await part of the audio branch runs, then
`disconnect()` fully tears the session down (active set cleared, session
promise nulled), yet the resumed post-await part still emits a start for the
decoded chunk and re-adds its handle to the cleared active set — a callback
of a torn-down session schedules and resurrects audio. -/
theorem stale_decode_resumption_counterexample :
    (disconnect (audioPre connectedState 3)).1.sources = [] ∧
    (disconnect (audioPre connectedState 3)).1.sessionPromise = none ∧
    (audioPost (disconnect (audioPre connectedState 3)).1 ⟨2400⟩ 5).1.sources = [5] ∧
    (audioPost (disconnect (audioPre connectedState 3)).1 ⟨2400⟩ 5).2
      = [Effect.startSource 5 3] := by
  refine ⟨rfl, rfl, rfl, ?_⟩
  have hmax : max (2 : ℚ) 3 = 3 := max_eq_right (by norm_num)
  simp [audioPost, audioPre, disconnect, connectedState, hmax]

/-- Claim C4 (amended): the capture callback checks only that some session
promise is currently set before sending — so after a teardown with no new
session, a stale capture frame is not sent — but the inbound decode path
re-validates nothing after its await: for every state, a chunk whose decode
completes after `disconnect()` still schedules playback at the cursor taken
before the await and re-adds its handle to the cleared active set. -/
theorem stale_callback_partial_guard (s : HookState) (frame : List ℚ)
    (c : Chunk) (now : ℚ) (h : Nat) (hs : s.sessionPromise = none) :
    (onaudioprocess s frame).2 = [] ∧
    (audioPost (disconnect (audioPre s now)).1 c h).1.sources = [h] ∧
    (audioPost (disconnect (audioPre s now)).1 c h).2
      = [Effect.startSource h (max s.nextStartTime now)] := by
  refine ⟨?_, rfl, rfl⟩
  simp [onaudioprocess, hs]

/-- Witness for the amended claim C4 at a concrete input. -/
theorem stale_callback_partial_guard_witness :
    initialState.sessionPromise = none ∧
    ((onaudioprocess initialState []).2 = [] ∧
     (audioPost (disconnect (audioPre initialState 0)).1 ⟨2400⟩ 3).1.sources = [3] ∧
     (audioPost (disconnect (audioPre initialState 0)).1 ⟨2400⟩ 3).2
       = [Effect.startSource 3 (max initialState.nextStartTime 0)]) :=
  ⟨rfl, stale_callback_partial_guard initialState [] ⟨2400⟩ 0 3 rfl⟩

/-- Claim C5: a chunk received without interruption is scheduled at
`max(nextStartTime, now)` and the cursor then advances by exactly the chunk
duration; in particular a 0.1 s chunk (2400 samples) followed back-to-back
by a 0.05 s chunk (1200 samples), with the clock not having passed the
cursor, gives the second chunk a start exactly 0.1 s after the first. -/
theorem chunk_scheduling_gapless (cb : Bool) (s : HookState) (nowa nowb : ℚ)
    (ha hb : Nat) (c : Chunk)
    (hclock : nowb ≤ max s.nextStartTime nowa + 1 / 10) :
    (onmessage cb s ⟨[], some c, false⟩ nowa ha).2
      = [Effect.startSource ha (max s.nextStartTime nowa)] ∧
    (onmessage cb s ⟨[], some c, false⟩ nowa ha).1.nextStartTime
      = max s.nextStartTime nowa + c.duration ∧
    (onmessage cb (onmessage cb s ⟨[], some ⟨2400⟩, false⟩ nowa ha).1
        ⟨[], some ⟨1200⟩, false⟩ nowb hb).2
      = [Effect.startSource hb (max s.nextStartTime nowa + 1 / 10)] := by
  refine ⟨rfl, rfl, ?_⟩
  have hdur : (Chunk.mk 2400).duration = 1 / 10 := by
    simp only [Chunk.duration]
    norm_num
  simp only [onmessage, audioPre, audioPost, List.flatMap_nil, List.nil_append,
    if_neg (Bool.false_ne_true), hdur]
  rw [max_eq_left hclock]

/-- Witness for claim C5 at a concrete input. -/
theorem chunk_scheduling_gapless_witness :
    (0 : ℚ) ≤ max initialState.nextStartTime 0 + 1 / 10 ∧
    ((onmessage true initialState ⟨[], some ⟨2400⟩, false⟩ 0 1).2
       = [Effect.startSource 1 (max initialState.nextStartTime 0)] ∧
     (onmessage true initialState ⟨[], some ⟨2400⟩, false⟩ 0 1).1.nextStartTime
       = max initialState.nextStartTime 0 + (Chunk.mk 2400).duration ∧
     (onmessage true (onmessage true initialState ⟨[], some ⟨2400⟩, false⟩ 0 1).1
         ⟨[], some ⟨1200⟩, false⟩ 0 2).2
       = [Effect.startSource 2 (max initialState.nextStartTime 0 + 1 / 10)]) :=
  ⟨by norm_num [initialState],
   chunk_scheduling_gapless true initialState 0 0 1 2 ⟨2400⟩ (by norm_num [initialState])⟩

/-- Claim C6: an interruption signal forcibly stops every active handle,
empties the active set, sets the speaking flag false and resets the cursor
to the current clock; and a non-interrupting chunk arrival never resets the
cursor to the clock — it leaves it no smaller than before and strictly
beyond the clock. -/
theorem interruption_resets_playback (cb : Bool) (s : HookState) (now : ℚ)
    (c : Chunk) (h : Nat) (hc : 0 < c.numSamples) :
    ((onmessage cb s ⟨[], none, true⟩ now h).1.sources = [] ∧
     (onmessage cb s ⟨[], none, true⟩ now h).1.isMimiSpeaking = false ∧
     (onmessage cb s ⟨[], none, true⟩ now h).1.nextStartTime = now ∧
     (onmessage cb s ⟨[], none, true⟩ now h).2 = s.sources.map Effect.stopSource) ∧
    (s.nextStartTime ≤ (onmessage cb s ⟨[], some c, false⟩ now h).1.nextStartTime ∧
     now < (onmessage cb s ⟨[], some c, false⟩ now h).1.nextStartTime) := by
  refine ⟨⟨rfl, rfl, rfl, rfl⟩, ?_, ?_⟩
  all_goals
    simp only [onmessage, audioPre, audioPost, if_neg (Bool.false_ne_true)]
  · have : (0 : ℚ) ≤ c.duration := by
      simp only [Chunk.duration]
      positivity
    calc s.nextStartTime ≤ max s.nextStartTime now := le_max_left _ _
      _ ≤ max s.nextStartTime now + c.duration := le_add_of_nonneg_right this
  · have : (0 : ℚ) < c.duration := by
      simp only [Chunk.duration]
      have : (0 : ℚ) < (c.numSamples : ℚ) := by exact_mod_cast hc
      positivity
    calc now ≤ max s.nextStartTime now := le_max_right _ _
      _ < max s.nextStartTime now + c.duration := lt_add_of_pos_right _ this

/-- Witness for claim C6 at a concrete input. -/
theorem interruption_resets_playback_witness :
    0 < (Chunk.mk 2400).numSamples ∧
    (((onmessage true connectedState ⟨[], none, true⟩ 0 7).1.sources = [] ∧
      (onmessage true connectedState ⟨[], none, true⟩ 0 7).1.isMimiSpeaking = false ∧
      (onmessage true connectedState ⟨[], none, true⟩ 0 7).1.nextStartTime = 0 ∧
      (onmessage true connectedState ⟨[], none, true⟩ 0 7).2
        = connectedState.sources.map Effect.stopSource) ∧
     (connectedState.nextStartTime
        ≤ (onmessage true connectedState ⟨[], some ⟨2400⟩, false⟩ 0 7).1.nextStartTime ∧
      (0 : ℚ) < (onmessage true connectedState ⟨[], some ⟨2400⟩, false⟩ 0 7).1.nextStartTime)) :=
  ⟨by decide, interruption_resets_playback true connectedState 0 ⟨2400⟩ 7 (by decide)⟩

/-- Splitting the response ids of a concatenated trace. -/
theorem toolResponseIds_append (a b : List Effect) :
    toolResponseIds (a ++ b) = toolResponseIds a ++ toolResponseIds b := by
  simp [toolResponseIds]

/-- Stop actions carry no tool response. -/
theorem toolResponseIds_stops (l : List Nat) :
    toolResponseIds (l.map Effect.stopSource) = [] := by
  induction l with
  | nil => rfl
  | cons a l ih => simp [toolResponseIds]

/-- The response ids produced by the tool call loop: one response per call
named "reportEvaluation", with the call's id, in order, whether or not an
evaluation callback is registered. -/
theorem toolResponseIds_loop (cb : Bool) (sid : Nat) (l : List FunctionCall) :
    toolResponseIds (l.flatMap (handleToolCall cb (some sid)))
      = (l.filter fun fc => fc.fname == "reportEvaluation").map FunctionCall.id := by
  induction l with
  | nil => rfl
  | cons fc l ih =>
    rw [List.flatMap_cons, toolResponseIds_append, ih]
    by_cases hname : fc.fname = "reportEvaluation"
    · cases cb <;>
        simp [handleToolCall, hname, toolResponseIds, List.filter_cons]
    · simp [handleToolCall, hname, toolResponseIds, List.filter_cons]

/-- The full action trace of one `onmessage` invocation, spelled out: the
tool loop actions, then the start of the chunk's source when audio is
present, then — on interruption — stops of every handle active at that
point (including the one just scheduled). -/
theorem onmessage_effects (cb : Bool) (s : HookState) (l : List FunctionCall)
    (audio : Option Chunk) (intr : Bool) (now : ℚ) (h : Nat) :
    (onmessage cb s ⟨l, audio, intr⟩ now h).2
      = l.flatMap (handleToolCall cb s.sessionPromise)
        ++ (match audio with
            | some _ => [Effect.startSource h (max s.nextStartTime now)]
            | none => [])
        ++ (if intr then
              ((match audio with
                | some _ => s.sources ++ [h]
                | none => s.sources).map Effect.stopSource)
            else []) := by
  rcases intr <;> rcases audio <;>
    simp [onmessage, audioPre, audioPost, handleInterruption]

/-- Claim C2 (counterexample): a ToolCall whose name is not
"reportEvaluation" receives no tool response at all, even with a session
promise set and a callback registered — the handler performs no action for
it — refuting the claim that every received ToolCall of any name is
answered exactly once. -/
theorem unknown_toolcall_unanswered_counterexample :
    connectedState.sessionPromise = some 0 ∧
    toolResponseIds (onmessage true connectedState
        ⟨[⟨"call-7", "someOtherTool", true, none⟩], none, false⟩ 0 0).2 = [] ∧
    (onmessage true connectedState
        ⟨[⟨"call-7", "someOtherTool", true, none⟩], none, false⟩ 0 0).2 = [] := by
  refine ⟨rfl, ?_, ?_⟩ <;> rfl

/-- Claim C2 (amended): while a session promise is set, the handler sends
exactly one tool response per received ToolCall named "reportEvaluation",
carrying that call's id, in order, regardless of whether an evaluation
callback is registered; ToolCalls with any other name are ignored and
receive no response. -/
theorem toolcall_responses_match_report_calls (cb : Bool) (s : HookState)
    (sid : Nat) (msg : ServerMessage) (now : ℚ) (h : Nat)
    (hs : s.sessionPromise = some sid) :
    toolResponseIds (onmessage cb s msg now h).2
      = (msg.toolCalls.filter fun fc => fc.fname == "reportEvaluation").map
          FunctionCall.id := by
  rcases msg with ⟨l, audio, intr⟩
  rw [onmessage_effects, hs, toolResponseIds_append, toolResponseIds_append,
    toolResponseIds_loop]
  have h1 : toolResponseIds
      (match audio with
       | some _ => [Effect.startSource h (max s.nextStartTime now)]
       | none => []) = [] := by
    rcases audio <;> rfl
  have h2 : toolResponseIds
      (if intr then
         ((match audio with
           | some _ => s.sources ++ [h]
           | none => s.sources).map Effect.stopSource)
       else []) = [] := by
    rcases intr <;> rcases audio <;> simp [toolResponseIds_stops, toolResponseIds]
  rw [h1, h2]
  simp

/-- Witness for the amended claim C2 at a concrete input. -/
theorem toolcall_responses_match_report_calls_witness :
    connectedState.sessionPromise = some 0 ∧
    toolResponseIds (onmessage false connectedState
        ⟨[⟨"id-9", "reportEvaluation", false, none⟩,
          ⟨"id-10", "otherTool", true, some "Math"⟩], some ⟨1200⟩, true⟩ 4 9).2
      = (([⟨"id-9", "reportEvaluation", false, none⟩,
           ⟨"id-10", "otherTool", true, some "Math"⟩] :
            List FunctionCall).filter fun fc =>
              fc.fname == "reportEvaluation").map FunctionCall.id :=
  ⟨rfl, toolcall_responses_match_report_calls false connectedState 0 _ 4 9 rfl⟩

/-- The tool loop trace when every call is named "reportEvaluation" and a
callback is registered: per call, the feedback effect, then the callback
invocation, then the tool response, in that order. -/
theorem dispatch_loop_trace (sid : Nat) (l : List FunctionCall)
    (hl : ∀ fc ∈ l, fc.fname = "reportEvaluation") :
    l.flatMap (handleToolCall true (some sid))
      = l.flatMap fun fc =>
          [Effect.playFeedback fc.isCorrect,
           Effect.onEvaluation fc.isCorrect fc.topic,
           Effect.sendToolResponse sid fc.id fc.fname "ok"] := by
  induction l with
  | nil => rfl
  | cons fc l ih =>
    rw [List.flatMap_cons, List.flatMap_cons,
      ih (fun g hg => hl g (List.mem_cons_of_mem _ hg))]
    have hname := hl fc (List.mem_cons_self _ _)
    simp [handleToolCall, hname]

/-- Claim C9: for every evaluation ToolCall, the handler raises the feedback
effect with the reported boolean, then invokes the registered evaluation
callback with the boolean and topic, then sends the tool response with the
fixed payload result "ok" and the same call id — and a message carrying
several such calls processes them independently in the order received. -/
theorem evaluation_dispatch_order (s : HookState) (sid : Nat)
    (l : List FunctionCall) (now : ℚ) (h : Nat)
    (hs : s.sessionPromise = some sid)
    (hl : l.all (fun fc => fc.fname == "reportEvaluation") = true) :
    (onmessage true s ⟨l, none, false⟩ now h).2
      = l.flatMap fun fc =>
          [Effect.playFeedback fc.isCorrect,
           Effect.onEvaluation fc.isCorrect fc.topic,
           Effect.sendToolResponse sid fc.id fc.fname "ok"] := by
  have hl' : ∀ fc ∈ l, fc.fname = "reportEvaluation" := by
    intro fc hfc
    have := List.all_eq_true.mp hl fc hfc
    simpa using this
  rw [onmessage_effects, hs, dispatch_loop_trace sid l hl']
  simp

/-- Witness for claim C9 at a concrete input, the spec scenario
isCorrect = true, topic = "Colors". -/
theorem evaluation_dispatch_order_witness :
    connectedState.sessionPromise = some 0 ∧
    ([⟨"id-1", "reportEvaluation", true, some "Colors"⟩] :
        List FunctionCall).all (fun fc => fc.fname == "reportEvaluation") = true ∧
    (onmessage true connectedState
        ⟨[⟨"id-1", "reportEvaluation", true, some "Colors"⟩], none, false⟩ 0 0).2
      = ([⟨"id-1", "reportEvaluation", true, some "Colors"⟩] :
          List FunctionCall).flatMap fun fc =>
            [Effect.playFeedback fc.isCorrect,
             Effect.onEvaluation fc.isCorrect fc.topic,
             Effect.sendToolResponse 0 fc.id fc.fname "ok"] :=
  ⟨rfl, by decide,
   evaluation_dispatch_order connectedState 0 _ 0 0 rfl (by decide)⟩

/-- Decoding the little-endian serialization of an in-range int16 value
recovers it, one value at a time. -/
theorem bytesToInt16s_encode_cons (n : ℤ) (rest : List Nat)
    (h1 : -32768 ≤ n) (h2 : n ≤ 32767) :
    bytesToInt16s (int16ToBytesLE n ++ rest) = n :: bytesToInt16s rest := by
  show bytesToInt16s ((n % 65536).toNat % 256 :: (n % 65536).toNat / 256 :: rest) = _
  rw [bytesToInt16s]
  congr 1
  unfold bytesToInt16
  split <;> omega

/-- Byte-level round trip for a whole list of in-range int16 values. -/
theorem bytesToInt16s_flat (ns : List ℤ)
    (h : ∀ n ∈ ns, -32768 ≤ n ∧ n ≤ 32767) :
    bytesToInt16s (ns.flatMap int16ToBytesLE) = ns := by
  induction ns with
  | nil => rfl
  | cons n ns ih =>
    rw [List.flatMap_cons,
      bytesToInt16s_encode_cons n _ (h n (List.mem_cons_self _ _)).1
        (h n (List.mem_cons_self _ _)).2,
      ih fun m hm => h m (List.mem_cons_of_mem _ hm)]

/-- The quantizer output never leaves the signed 16-bit range (lower end). -/
theorem quantizeSample_lb (x : ℚ) : -32768 ≤ quantizeSample x := le_max_left _ _

/-- The quantizer output never leaves the signed 16-bit range (upper end). -/
theorem quantizeSample_ub (x : ℚ) : quantizeSample x ≤ 32767 :=
  max_le (by norm_num) (min_le_left _ _)

/-- The full decode of an encoded frame is the pointwise
quantize-then-normalize of the frame. -/
theorem decode_createBlob (frame : List ℚ) :
    decodeAudioSamples (createBlobData frame)
      = frame.map fun x => ((quantizeSample x : ℤ) : ℚ) / 32767 := by
  have hflat : bytesToInt16s ((frame.map quantizeSample).flatMap int16ToBytesLE)
      = frame.map quantizeSample := by
    refine bytesToInt16s_flat _ fun n hn => ?_
    rcases List.mem_map.mp hn with ⟨x, _, rfl⟩
    exact ⟨quantizeSample_lb x, quantizeSample_ub x⟩
  unfold decodeAudioSamples createBlobData
  rw [hflat, List.map_map]
  rfl

/-- Pointwise quantization error bound: for an in-range sample, quantizing
and normalizing moves it by at most one quantization step. -/
theorem quantize_error (x : ℚ) (h1 : -1 ≤ x) (h2 : x ≤ 1) :
    |((quantizeSample x : ℤ) : ℚ) / 32767 - x| ≤ 1 / 32767 := by
  have hy1 : (-32767 : ℚ) ≤ 32767 * x := by nlinarith
  have hy2 : 32767 * x ≤ 32767 := by nlinarith
  unfold quantizeSample ratTrunc
  by_cases h0 : (0 : ℚ) ≤ 32767 * x
  · rw [if_pos h0]
    have ht1 : ((⌊(32767 : ℚ) * x⌋ : ℤ) : ℚ) ≤ 32767 * x := Int.floor_le _
    have ht2 : (32767 : ℚ) * x - 1 < ((⌊(32767 : ℚ) * x⌋ : ℤ) : ℚ) :=
      Int.sub_one_lt_floor _
    have hub : ⌊(32767 : ℚ) * x⌋ ≤ 32767 := by
      have : ((⌊(32767 : ℚ) * x⌋ : ℤ) : ℚ) ≤ ((32767 : ℤ) : ℚ) := by push_cast; linarith
      exact_mod_cast this
    have hlb : (0 : ℤ) ≤ ⌊(32767 : ℚ) * x⌋ := Int.floor_nonneg.mpr h0
    rw [int16Clamp, min_eq_right hub, max_eq_right (by omega)]
    rw [abs_le]
    constructor <;> linarith
  · rw [if_neg h0]
    push_neg at h0
    have ht1 : (32767 : ℚ) * x ≤ ((⌈(32767 : ℚ) * x⌉ : ℤ) : ℚ) := Int.le_ceil _
    have ht2 : ((⌈(32767 : ℚ) * x⌉ : ℤ) : ℚ) < 32767 * x + 1 := Int.ceil_lt_add_one _
    have hub : ⌈(32767 : ℚ) * x⌉ ≤ 0 := by
      rw [show (0 : ℤ) = ((0 : ℤ)) from rfl, Int.ceil_le]
      push_cast
      linarith
    have hlb : (-32767 : ℤ) ≤ ⌈(32767 : ℚ) * x⌉ := by
      have : ((-32767 : ℤ) : ℚ) ≤ ((⌈(32767 : ℚ) * x⌉ : ℤ) : ℚ) := by push_cast; linarith
      exact_mod_cast this
    rw [int16Clamp, min_eq_right (by omega), max_eq_right (by omega)]
    rw [abs_le]
    constructor <;> linarith

/-- Unfolding the boolean sample-range check. -/
theorem inRange_true_iff (x : ℚ) : inRange x = true ↔ (-1 ≤ x ∧ x ≤ 1) := by
  simp [inRange]

/-- Claim C7: for every frame of valid samples (each in [-1, 1]),
encoding with the outbound encoder and decoding with the inbound decoder
reconstructs every sample to within 1/32767 of the original (positions past
the end compare the default 0 with 0). -/
theorem encode_decode_roundtrip (frame : List ℚ)
    (hf : frame.all inRange = true) (i : ℕ) :
    |(decodeAudioSamples (createBlobData frame)).getD i 0 - frame.getD i 0|
      ≤ 1 / 32767 := by
  rw [decode_createBlob]
  induction frame generalizing i with
  | nil => simp
  | cons x xs ih =>
    rw [List.all_cons, Bool.and_eq_true] at hf
    rw [List.map_cons]
    rcases i with _ | i
    · rw [List.getD_cons_zero, List.getD_cons_zero]
      obtain ⟨hx1, hx2⟩ := (inRange_true_iff x).mp hf.1
      exact quantize_error x hx1 hx2
    · rw [List.getD_cons_succ, List.getD_cons_succ]
      exact ih hf.2 i

/-- Witness for claim C7 at a concrete frame. -/
theorem encode_decode_roundtrip_witness :
    ([1, -1, 0] : List ℚ).all inRange = true ∧
    |(decodeAudioSamples (createBlobData [1, -1, 0])).getD 1 0
        - ([1, -1, 0] : List ℚ).getD 1 0| ≤ 1 / 32767 :=
  ⟨by decide, encode_decode_roundtrip [1, -1, 0] (by decide) 1⟩

end AITeacher
